import Mathlib

/-!
# Verification of the event ingestion and moderation pipeline

Shallow embedding of the ingestion pipeline (`src/app/api/import/run/route.ts`,
its variant `src/unnamed/part_014`, and `src/app/know-your-rights/api/import/run/route.ts`)
and of the moderation surface of the protest detail page
(`src/components/PageHeader.tsx`, `ProtestDetailPage`).

Timestamps are modelled as `Int` milliseconds since the epoch (the code stores
ISO-8601 strings whose lexicographic order agrees with chronological order).
Strings are Lean `String`s; nullable columns are `Option`s.
-/

namespace LocalProtest

/-- One day in milliseconds: `24 * 60 * 60 * 1000` as in the routes. -/
def dayMs : Int := 24 * 60 * 60 * 1000

/-- The JavaScript whitespace class (`\s`, also the set removed by
`String.prototype.trim`): tab through carriage return, space, NBSP, and the
Unicode space separators plus BOM. -/
def isWs (c : Char) : Bool :=
  (9 ≤ c.toNat && c.toNat ≤ 13) || c.toNat == 32 || c.toNat == 0xA0 ||
  c.toNat == 0x1680 || (0x2000 ≤ c.toNat && c.toNat ≤ 0x200A) ||
  c.toNat == 0x2028 || c.toNat == 0x2029 || c.toNat == 0x202F ||
  c.toNat == 0x205F || c.toNat == 0x3000 || c.toNat == 0xFEFF

/-- Remove leading and trailing whitespace from a character list. -/
def trimChars (l : List Char) : List Char :=
  ((l.dropWhile isWs).reverse.dropWhile isWs).reverse

/-- JavaScript `String.prototype.trim`. -/
def jsTrim (s : String) : String :=
  ⟨trimChars s.data⟩

/-! ## Data model -/

/-- A configured import source, from `ImportSource` in the routes
(the `type` field is the constant `"ics"` and is omitted). -/
structure ImportSource where
  key : String
  name : String
  url : String
  deriving Repr, DecidableEq

/-- A normalized feed entry, from `ImportedEvent` in the routes.
`start` models `start_iso` as epoch milliseconds. -/
structure ImportedEvent where
  external_id : String
  title : String
  description : Option String
  start : Option Int
  source_url : Option String
  city : Option String
  state : Option String
  deriving Repr, DecidableEq

/-- A stored row of the `protests` table, restricted to the columns the
Reconciler's upsert payload writes (route `GET`, payload object). -/
structure Rec where
  title : String
  description : Option String
  city : Option String
  state : Option String
  event_time : Option Int
  organizer_username : String
  status : String
  source_type : String
  source_name : String
  source_key : String
  external_id : String
  source_url : Option String
  last_seen_at : Option Int
  event_types : Option (List String)
  is_accessible : Option Bool
  accessibility_features : Option (List String)
  image_path : Option String
  deriving Repr, DecidableEq

/-! ## Trigger authorization -/

/-- Authorization of the main ingestion trigger, from
`src/app/api/import/run/route.ts` lines 178-184 (identically
`src/unnamed/part_014` lines 157-163):
`const secret = (process.env.CRON_SECRET || "").trim();`
`const token = (url.searchParams.get("token") || "").trim();`
`if (!secret || token !== secret) return 401`. -/
def authorizedMain (secret token : String) : Bool :=
  jsTrim secret ≠ "" && jsTrim token == jsTrim secret

/-- JavaScript truthiness of `req.headers.get(...)`: `null` and `""` are
falsy, any other string is truthy. -/
def jsTruthy (h : Option String) : Bool :=
  match h with
  | none => false
  | some s => s ≠ ""

/-- Authorization of the know-your-rights ingestion trigger, from
`src/app/know-your-rights/api/import/run/route.ts` lines 126-135:
`const authorized = (!!secret && !!vercelCronHeader) || (!!secret && token === secret)`. -/
def authorizedKyr (secret : String) (cronHeader : Option String) (token : String) : Bool :=
  (secret ≠ "" && jsTruthy cronHeader) || (secret ≠ "" && token == secret)

/-! ## Detail-page visibility (`ProtestDetailPage` in `src/components/PageHeader.tsx`) -/

/-- The fields of a protest row the detail page reads for its visibility
decision, from the `Protest` type in `src/components/PageHeader.tsx`. -/
structure Protest where
  id : String
  user_id : Option String
  organizer_username : Option String
  title : String
  description : String
  status : String
  report_count : Nat
  deriving Repr, DecidableEq

/-- Result of a detail-view request: either the "Listing unavailable" page or
the full record. -/
inductive DetailView where
  | unavailable
  | full (p : Protest)
  deriving Repr, DecidableEq

/-- `const organizer = !!uid && protestRow.user_id === uid;`
(`src/components/PageHeader.tsx` line 269). -/
def isOrganizerOf (p : Protest) (uid : Option String) : Bool :=
  match uid with
  | none => false
  | some u => p.user_id == some u

/-- The detail page's visibility gate, from `src/components/PageHeader.tsx`
lines 484-495: `if (protest.status !== "active" && !isOrganizer)` render
"Listing unavailable", otherwise render the full record.  The component has no
administrator branch: every non-organizer viewer is treated alike. -/
def protestDetailView (p : Protest) (uid : Option String) : DetailView :=
  if p.status ≠ "active" && !(isOrganizerOf p uid) then .unavailable else .full p

/-! ## Upsert Reconciler (`GET` in `src/app/api/import/run/route.ts`) -/

/-- The upsert payload built for one feed entry, from the payload object in
`src/app/api/import/run/route.ts` lines 204-227 (identically in the other two
routes): every column is a function of the entry and the source configuration,
except `last_seen_at := nowIso`, the run's start time. -/
def buildPayload (src : ImportSource) (now : Int) (ev : ImportedEvent) : Rec :=
  { title := ev.title
    description := ev.description
    city := ev.city
    state := ev.state
    event_time := ev.start
    organizer_username := "import:" ++ src.key
    status := "active"
    source_type := "import"
    source_name := src.name
    source_key := src.key
    external_id := ev.external_id
    source_url := ev.source_url
    last_seen_at := some now
    event_types := none
    is_accessible := none
    accessibility_features := none
    image_path := none }

/-- Two rows conflict exactly when they agree on the reconciliation key, the
store's `onConflict: "source_key,external_id"` uniqueness constraint. -/
def sameKey (a b : Rec) : Bool :=
  a.source_key == b.source_key && a.external_id == b.external_id

/-- The store's insert-or-update primitive
(`supabase.from("protests").upsert(payload, { onConflict: "source_key,external_id" })`):
a conflicting row is fully replaced by the payload, otherwise the payload is
inserted as a new row. -/
def upsert (s : List Rec) (p : Rec) : List Rec :=
  if s.any (fun r => sameKey r p) then
    s.map (fun r => if sameKey r p then p else r)
  else
    s ++ [p]

/-- One feed's reconciliation pass: upsert the payload of each admitted entry
in feed order (the `for (const ev of limited)` loop of the route). -/
def runFeed (src : ImportSource) (now : Int) (entries : List ImportedEvent)
    (s : List Rec) : List Rec :=
  entries.foldl (fun acc ev => upsert acc (buildPayload src now ev)) s

/-- Outcome of fetching and parsing one configured feed, abstracting
`fetchIcs`/`icsToEvents`: either the normalized entry list or a per-feed
failure (any thrown error). -/
def FeedResult := Except String (List ImportedEvent)

/-- The per-source loop of the route's `GET`: a successful feed is capped to
its first 200 entries and reconciled; a failed feed is only recorded and the
loop continues (`try`/`catch` per source). -/
def runAllFeeds (fetched : ImportSource → FeedResult) (now : Int)
    (sources : List ImportSource) (s : List Rec) : List Rec :=
  sources.foldl
    (fun acc src =>
      match fetched src with
      | .ok evs => runFeed src now (evs.take 200) acc
      | .error _ => acc)
    s

/-- The expiry grace period of the routes: `const expireDays = 45`. -/
def expireDays : Int := 45

/-- Effect of the expiry sweep on a single stored row:
`.update({ status: "inactive" }).eq("source_type", "import").lt("last_seen_at", cutoff)`
with `cutoff = now - expireDays * 24 * 60 * 60 * 1000`.  A row with a null
`last_seen_at` is never matched by the SQL `<` comparison. -/
def sweepRecord (now : Int) (r : Rec) : Rec :=
  if r.source_type == "import" &&
      (match r.last_seen_at with
       | some t => t < now - expireDays * dayMs
       | none => false) then
    { r with status := "inactive" }
  else r

/-- The expiry sweep over the whole store (route `GET` lines 257-265). -/
def expireSweep (now : Int) (s : List Rec) : List Rec :=
  s.map (sweepRecord now)

/-- Observable outcome of a trigger invocation: HTTP status code of the
response and the resulting store. -/
structure RunOutcome where
  httpStatus : Nat
  store : List Rec
  deriving Repr, DecidableEq

/-- The main ingestion trigger `GET` (`src/app/api/import/run/route.ts`):
reject with 401 unless the token matches the configured secret; reject with
400 when no sources are configured (in both cases the store is untouched);
otherwise process every source (failures isolated per feed) and finally run
the expiry sweep once. -/
def pipelineGET (secret token : String) (sources : List ImportSource)
    (fetched : ImportSource → FeedResult) (now : Int) (s : List Rec) : RunOutcome :=
  if !authorizedMain secret token then
    { httpStatus := 401, store := s }
  else if sources.isEmpty then
    { httpStatus := 400, store := s }
  else
    { httpStatus := 200, store := expireSweep now (runAllFeeds fetched now sources s) }

/-- Does a stored row sit at reconciliation key `k`? -/
def matchKey (k : String × String) (r : Rec) : Bool :=
  r.source_key == k.1 && r.external_id == k.2

/-- Point lookup by reconciliation key (the store's uniqueness constraint
makes the first match the only one). -/
def findKey (s : List Rec) (k : String × String) : Option Rec :=
  s.find? (matchKey k)

/-- A row erased of its `last_seen_at` column, for comparing stores up to the
refreshed timestamp. -/
def maskSeen (r : Rec) : Rec :=
  { r with last_seen_at := none }

/-- The most recent (last, in feed order) entry of a batch carrying a given
reconciliation key — the entry whose payload survives the feed's upsert loop. -/
def lastEntryWith (src : ImportSource) (es : List ImportedEvent)
    (k : String × String) : Option ImportedEvent :=
  es.reverse.find? (fun ev => src.key == k.1 && ev.external_id == k.2)

/-! ## Theorems -/

/-- **C10.** For every request to the ingestion trigger endpoint
(`src/app/api/import/run/route.ts` lines 178-184, `src/unnamed/part_014`
lines 157-163), if the shared secret is unset or blank then authorization
fails regardless of the supplied token — in particular an empty token does not
match an empty secret, so an unconfigured deployment fails closed. -/
theorem unset_secret_fails_closed (secret token : String)
    (h : jsTrim secret = "") :
    authorizedMain secret token = false ∧ authorizedMain secret "" = false := by
  constructor <;> simp [authorizedMain, h]

/-- Witness for `unset_secret_fails_closed` at the concrete unconfigured
deployment `secret = ""`, `token = ""`. -/
theorem unset_secret_fails_closed_witness :
    jsTrim "" = "" ∧ (authorizedMain "" "" = false ∧ authorizedMain "" "" = false) :=
  ⟨by decide, unset_secret_fails_closed "" "" (by decide)⟩

/-- **C2.** For every event record with `status ≠ active`, a detail-view
request by a visitor who is not the event's organizer yields the not-visible
result, while the same request by the organizer yields the full record.  The
source component (`src/components/PageHeader.tsx` lines 484-495) has no
administrator branch, so the first part covers every non-organizer viewer, in
particular one who is also not a verified administrator. -/
theorem hidden_event_detail_visibility (p : Protest) (uid : Option String)
    (hstatus : p.status ≠ "active") :
    (isOrganizerOf p uid = false → protestDetailView p uid = .unavailable) ∧
    (isOrganizerOf p uid = true → protestDetailView p uid = .full p) := by
  constructor <;> intro h <;> simp [protestDetailView, h, hstatus]

/-- Witness for `hidden_event_detail_visibility`: a hidden event, a stranger
viewer (not visible) and the organizer viewer (full record). -/
theorem hidden_event_detail_visibility_witness :
    let p : Protest := { id := "p1", user_id := some "alice", organizer_username := some "alice",
                         title := "March", description := "d", status := "hidden", report_count := 0 }
    (p.status ≠ "active" ∧
      (isOrganizerOf p (some "bob") = false → protestDetailView p (some "bob") = .unavailable)) ∧
    (isOrganizerOf p (some "alice") = true → protestDetailView p (some "alice") = .full p) := by
  intro p
  refine ⟨⟨by decide, (hidden_event_detail_visibility p (some "bob") (by decide)).1⟩,
    (hidden_event_detail_visibility p (some "alice") (by decide)).2⟩

/-- A run in which every configured feed fails leaves the feed-phase store
untouched: the per-source `try`/`catch` only records the failure. -/
theorem runAllFeeds_all_fail (fetched : ImportSource → FeedResult) (now : Int)
    (sources : List ImportSource) (s : List Rec)
    (h : ∀ src ∈ sources, ∃ e, fetched src = .error e) :
    runAllFeeds fetched now sources s = s := by
  induction sources generalizing s with
  | nil => rfl
  | cons src rest ih =>
    obtain ⟨e, he⟩ := h src (List.mem_cons_self src rest)
    simp only [runAllFeeds, List.foldl_cons, he]
    exact ih s (fun x hx => h x (List.mem_cons_of_mem src hx))

/-- Witness for `runAllFeeds_all_fail` on one failing source. -/
theorem runAllFeeds_all_fail_witness :
    runAllFeeds (fun _ => Except.error "down") 0
      [{ key := "k", name := "n", url := "http://e" }] [] = [] :=
  runAllFeeds_all_fail _ 0 _ []
    (fun _ _ => ⟨"down", rfl⟩)

/-- **C3.** After every pipeline invocation that passes the entry guards, the
expiry sweep is applied exactly once — in particular also when every per-feed
fetch failed, in which case it is applied to the unchanged incoming store —
and it sets `status = "inactive"` on precisely the rows with
`source_type = "import"` whose `last_seen_at` is strictly older than 45 days
before the sweep time: a row last seen at or after the cutoff (such as 44 days
ago), and every row with a different `source_type`, is left untouched. -/
theorem expiry_sweep_once_and_exact (secret token : String)
    (sources : List ImportSource) (fetched : ImportSource → FeedResult)
    (now : Int) (s : List Rec)
    (hauth : authorizedMain secret token = true) (hsrc : sources ≠ []) :
    pipelineGET secret token sources fetched now s =
      { httpStatus := 200, store := expireSweep now (runAllFeeds fetched now sources s) } ∧
    ((∀ src ∈ sources, ∃ e, fetched src = .error e) →
      pipelineGET secret token sources fetched now s =
        { httpStatus := 200, store := expireSweep now s }) ∧
    (∀ r : Rec, ∀ t : Int, r.source_type = "import" → r.last_seen_at = some t →
      t < now - expireDays * dayMs → sweepRecord now r = { r with status := "inactive" }) ∧
    (∀ r : Rec, ∀ t : Int, r.last_seen_at = some t →
      now - expireDays * dayMs ≤ t → sweepRecord now r = r) ∧
    (∀ r : Rec, r.source_type ≠ "import" → sweepRecord now r = r) := by
  refine ⟨?_, ?_, ?_, ?_, ?_⟩
  · simp [pipelineGET, hauth, hsrc]
  · intro hfail
    simp [pipelineGET, hauth, hsrc, runAllFeeds_all_fail fetched now sources s hfail]
  · intro r t htype hseen hold
    simp [sweepRecord, htype, hseen, hold]
  · intro r t hseen hfresh
    simp [sweepRecord, hseen]
    intro _
    omega
  · intro r htype
    simp [sweepRecord, htype]

/-- Sample imported row for the expiry witness, last seen 46 days before
`now = 100 * dayMs`. -/
def staleImportRow : Rec :=
  { title := "A", description := none, city := none, state := none,
    event_time := none, organizer_username := "import:k", status := "active",
    source_type := "import", source_name := "N", source_key := "k",
    external_id := "e1", source_url := none, last_seen_at := some (54 * dayMs),
    event_types := none, is_accessible := none, accessibility_features := none,
    image_path := none }

/-- Sample imported row for the expiry witness, last seen 44 days before
`now = 100 * dayMs`. -/
def freshImportRow : Rec :=
  { staleImportRow with external_id := "e2", last_seen_at := some (56 * dayMs) }

/-- Sample organizer-submitted row for the expiry witness. -/
def organizerRow : Rec :=
  { staleImportRow with
    external_id := ""
    source_type := "organizer"
    organizer_username := "alice"
    last_seen_at := some 0 }

/-- Witness for `expiry_sweep_once_and_exact`: an authorized run over one
failing feed with `now = 100 * dayMs` sweeps the untouched store; the row last
seen 46 days ago is expired, the row last seen 44 days ago and the organizer
row are untouched. -/
theorem expiry_sweep_once_and_exact_witness :
    pipelineGET "s3cr" "s3cr" [{ key := "k", name := "N", url := "http://e" }]
        (fun _ => Except.error "down") (100 * dayMs)
        [staleImportRow, freshImportRow, organizerRow] =
      { httpStatus := 200,
        store := expireSweep (100 * dayMs) [staleImportRow, freshImportRow, organizerRow] } ∧
    sweepRecord (100 * dayMs) staleImportRow = { staleImportRow with status := "inactive" } ∧
    sweepRecord (100 * dayMs) freshImportRow = freshImportRow ∧
    sweepRecord (100 * dayMs) organizerRow = organizerRow := by
  have h := expiry_sweep_once_and_exact "s3cr" "s3cr"
    [{ key := "k", name := "N", url := "http://e" }] (fun _ => Except.error "down")
    (100 * dayMs) [staleImportRow, freshImportRow, organizerRow]
    (by decide) (by simp)
  refine ⟨h.2.1 (fun _ _ => ⟨"down", rfl⟩), ?_, ?_, ?_⟩
  · exact h.2.2.1 staleImportRow (54 * dayMs) rfl rfl (by norm_num [dayMs, expireDays])
  · exact h.2.2.2.1 freshImportRow (56 * dayMs) rfl (by norm_num [dayMs, expireDays])
  · exact h.2.2.2.2 organizerRow (by decide)

/-- **C8 counterexample.** The know-your-rights trigger
(`src/app/know-your-rights/api/import/run/route.ts` lines 126-139) authorizes
a request that presents the shared secret nowhere: with secret `"s3cret"`, a
scheduler header whose value is merely `"1"` and an empty query token, the
request is authorized, refuting "authorized exactly when it presents the
shared secret either via the scheduler header or as a query-string token". -/
theorem kyr_header_presence_authorizes :
    authorizedKyr "s3cret" (some "1") "" = true ∧
    "1" ≠ "s3cret" ∧ "" ≠ "s3cret" := by
  refine ⟨by decide, by decide, by decide⟩

/-- **C8 (amended).** A request to the know-your-rights trigger is authorized
exactly when the secret is configured (non-empty) and either the scheduler
header is present with any non-empty value — its value is not compared to the
secret — or the query token equals the secret; the main trigger
(`src/app/api/import/run/route.ts`) has no header branch and authorizes
exactly when the trimmed query token equals the non-empty trimmed secret.
Every other request receives an unauthorized (401) response and triggers no
feed processing. -/
theorem trigger_authorization_exact (secret token : String)
    (cronHeader : Option String) (sources : List ImportSource)
    (fetched : ImportSource → FeedResult) (now : Int) (s : List Rec) :
    (authorizedKyr secret cronHeader token = true ↔
      (secret ≠ "" ∧ (jsTruthy cronHeader = true ∨ token = secret))) ∧
    (authorizedMain secret token = true ↔
      (jsTrim secret ≠ "" ∧ jsTrim token = jsTrim secret)) ∧
    (authorizedMain secret token = false →
      pipelineGET secret token sources fetched now s = { httpStatus := 401, store := s }) := by
  refine ⟨?_, ?_, ?_⟩
  · simp [authorizedKyr]
    tauto
  · simp [authorizedMain]
  · intro h
    simp [pipelineGET, h]

/-- Witness for `trigger_authorization_exact`: the header-presence
authorization, the main route's token authorization, and the untouched store
on an unauthorized request, all at concrete inputs. -/
theorem trigger_authorization_exact_witness :
    authorizedKyr "s3cret" (some "1") "" = true ∧
    authorizedMain "s3cret" " s3cret " = true ∧
    pipelineGET "s3cret" "wrong" [] (fun _ => Except.error "e") 0 [organizerRow] =
      { httpStatus := 401, store := [organizerRow] } := by
  have h := trigger_authorization_exact "s3cret" "" (some "1") []
    (fun _ => Except.error "e") 0 [organizerRow]
  have h2 := trigger_authorization_exact "s3cret" " s3cret " none []
    (fun _ => Except.error "e") 0 [organizerRow]
  have h3 := trigger_authorization_exact "s3cret" "wrong" none []
    (fun _ => Except.error "e") 0 [organizerRow]
  refine ⟨h.1.mpr ⟨by decide, Or.inl (by decide)⟩, ?_, ?_⟩
  · exact h2.2.1.mpr (by constructor <;> decide)
  · exact h3.2.2 (by decide)

/-- Replacing every row that conflicts with `p` by `p` makes `p` the first row
found at `p`'s key, provided some row conflicted. -/
theorem find_replace_self (p : Rec) :
    ∀ s : List Rec, s.any (fun r => sameKey r p) = true →
      (s.map (fun r => if sameKey r p then p else r)).find?
        (matchKey (p.source_key, p.external_id)) = some p := by
  intro s
  induction s with
  | nil => intro h; simp at h
  | cons r rest ih =>
    intro hs
    cases hr : sameKey r p with
    | true =>
      simp only [List.map_cons, hr, if_true]
      exact List.find?_cons_of_pos _ (by simp [matchKey])
    | false =>
      simp only [List.any_cons, hr, Bool.false_or] at hs
      simp only [List.map_cons, hr, Bool.false_eq_true, if_false]
      rw [List.find?_cons_of_neg _ (by simp [matchKey, sameKey] at hr ⊢; tauto)]
      exact ih hs

/-- Replacing every row that conflicts with `p` by `p` does not change the
first row found at any key other than `p`'s. -/
theorem find_replace_other (p : Rec) (k : String × String)
    (h : matchKey k p = false) :
    ∀ s : List Rec,
      (s.map (fun r => if sameKey r p then p else r)).find? (matchKey k) =
        s.find? (matchKey k) := by
  intro s
  induction s with
  | nil => simp
  | cons r rest ih =>
    cases hr : sameKey r p with
    | true =>
      have hkeys : r.source_key = p.source_key ∧ r.external_id = p.external_id := by
        simpa [sameKey] using hr
      have hmr : matchKey k r = false := by
        simp only [matchKey] at h ⊢
        rw [hkeys.1, hkeys.2]
        exact h
      simp only [List.map_cons, hr, if_true]
      rw [List.find?_cons_of_neg _ (by simp [h]), List.find?_cons_of_neg _ (by simp [hmr])]
      exact ih
    | false =>
      simp only [List.map_cons, hr, Bool.false_eq_true, if_false]
      cases hm : matchKey k r with
      | true => rw [List.find?_cons_of_pos _ hm, List.find?_cons_of_pos _ hm]
      | false =>
        rw [List.find?_cons_of_neg _ (by simp [hm]), List.find?_cons_of_neg _ (by simp [hm])]
        exact ih

/-- Upserting a payload makes it the row found at its own reconciliation key:
a conflicting row is replaced, otherwise the payload is appended. -/
theorem findKey_upsert_self (s : List Rec) (p : Rec) :
    findKey (upsert s p) (p.source_key, p.external_id) = some p := by
  unfold upsert findKey
  cases hs : s.any (fun r => sameKey r p) with
  | true =>
    simp only [if_true]
    exact find_replace_self p s hs
  | false =>
    simp only [Bool.false_eq_true, if_false]
    rw [List.find?_append]
    have hnone : s.find? (matchKey (p.source_key, p.external_id)) = none := by
      rw [List.find?_eq_none]
      intro r hr
      have := List.any_eq_false.mp (by simpa using hs) r hr
      simp [matchKey, sameKey] at this ⊢
      tauto
    rw [hnone]
    simp [List.find?_cons_of_pos _ (show matchKey (p.source_key, p.external_id) p = true by simp [matchKey])]

/-- Upserting a payload leaves the lookup at every other reconciliation key
unchanged. -/
theorem findKey_upsert_other (s : List Rec) (p : Rec) (k : String × String)
    (h : matchKey k p = false) :
    findKey (upsert s p) k = findKey s k := by
  unfold upsert findKey
  cases hs : s.any (fun r => sameKey r p) with
  | true =>
    simp only [if_true]
    exact find_replace_other p k h s
  | false =>
    simp only [Bool.false_eq_true, if_false]
    rw [List.find?_append]
    have : ([p].find? (matchKey k)) = none := by simp [List.find?, h]
    simp [this]

/-- After one feed pass, the row at a reconciliation key is the payload of the
batch's last entry with that key, or the starting store's row if the batch
carries none — independently of the starting store's contents at that key. -/
theorem runFeed_findKey (src : ImportSource) (now : Int)
    (es : List ImportedEvent) (s : List Rec) (k : String × String) :
    findKey (runFeed src now es s) k =
      match lastEntryWith src es k with
      | some evL => some (buildPayload src now evL)
      | none => findKey s k := by
  induction es using List.reverseRecOn with
  | nil => rfl
  | append_singleton es e ih =>
    have hfold : runFeed src now (es ++ [e]) s =
        upsert (runFeed src now es s) (buildPayload src now e) := by
      simp [runFeed, List.foldl_append]
    have hrev : (es ++ [e]).reverse = e :: es.reverse := by simp
    have hlast : lastEntryWith src (es ++ [e]) k =
        if (src.key == k.1 && e.external_id == k.2) = true then some e
        else lastEntryWith src es k := by
      rw [lastEntryWith, hrev]
      cases he : (src.key == k.1 && e.external_id == k.2) with
      | true =>
        rw [@List.find?_cons_of_pos ImportedEvent
          (fun ev => src.key == k.1 && ev.external_id == k.2) e es.reverse (by exact he)]
        simp [he]
      | false =>
        rw [@List.find?_cons_of_neg ImportedEvent
          (fun ev => src.key == k.1 && ev.external_id == k.2) e es.reverse (by simp [he])]
        simp [he, lastEntryWith]
    rw [hfold, hlast]
    cases he : (src.key == k.1 && e.external_id == k.2) with
    | true =>
      simp only [if_true]
      have h1 : src.key = k.1 := eq_of_beq ((Bool.and_eq_true _ _).mp he).1
      have h2 : e.external_id = k.2 := eq_of_beq ((Bool.and_eq_true _ _).mp he).2
      have hk : k = (src.key, e.external_id) := by
        obtain ⟨k1, k2⟩ := k
        rw [h1, h2]
      rw [hk]
      exact findKey_upsert_self (runFeed src now es s) (buildPayload src now e)
    | false =>
      simp only [Bool.false_eq_true, if_false]
      have hm : matchKey k (buildPayload src now e) = false := by
        simp only [matchKey, buildPayload]
        simpa using he
      rw [findKey_upsert_other _ _ _ hm, ih]

/-- **C1.** The Reconciler's upsert payload is a function of the entry and the
source configuration alone except for `last_seen_at` (first conjunct), and
running the same feed batch twice in immediate succession leaves, at the key
of every batch entry, rows that agree in every stored column except
`last_seen_at`, which carries each run's start time (`nowIso` is computed once
per run before the upsert loop). -/
theorem reconciler_idempotent_up_to_last_seen (src : ImportSource)
    (es : List ImportedEvent) (t1 t2 : Int) (s : List Rec)
    (ev : ImportedEvent) (hev : ev ∈ es) :
    (∀ e' : ImportedEvent, ∀ ta tb : Int,
      maskSeen (buildPayload src ta e') = maskSeen (buildPayload src tb e')) ∧
    ∃ evL : ImportedEvent,
      findKey (runFeed src t1 es s) (src.key, ev.external_id) =
        some (buildPayload src t1 evL) ∧
      findKey (runFeed src t2 es (runFeed src t1 es s)) (src.key, ev.external_id) =
        some (buildPayload src t2 evL) ∧
      maskSeen (buildPayload src t2 evL) = maskSeen (buildPayload src t1 evL) ∧
      (buildPayload src t1 evL).last_seen_at = some t1 ∧
      (buildPayload src t2 evL).last_seen_at = some t2 := by
  refine ⟨fun e' ta tb => by simp [maskSeen, buildPayload], ?_⟩
  have hsome : (lastEntryWith src es (src.key, ev.external_id)).isSome = true := by
    rw [lastEntryWith, List.find?_isSome]
    exact ⟨ev, List.mem_reverse.mpr hev, by simp⟩
  obtain ⟨evL, hL⟩ := Option.isSome_iff_exists.mp hsome
  refine ⟨evL, ?_, ?_, by simp [maskSeen, buildPayload], rfl, rfl⟩
  · rw [runFeed_findKey, hL]
  · rw [runFeed_findKey, hL]

/-- Sample feed entry for the reconciler witness. -/
def sampleEntry : ImportedEvent :=
  { external_id := "uid-1", title := "Rally", description := some "d",
    start := some (5 * dayMs), source_url := some "http://x", city := some "Austin",
    state := some "TX" }

/-- Witness for `reconciler_idempotent_up_to_last_seen` on a one-entry batch
run at times `1` and `2` over the empty store. -/
theorem reconciler_idempotent_up_to_last_seen_witness :
    sampleEntry ∈ [sampleEntry] ∧
    ((∀ e' : ImportedEvent, ∀ ta tb : Int,
      maskSeen (buildPayload { key := "k", name := "N", url := "u" } ta e') =
        maskSeen (buildPayload { key := "k", name := "N", url := "u" } tb e')) ∧
    ∃ evL : ImportedEvent,
      findKey (runFeed { key := "k", name := "N", url := "u" } 1 [sampleEntry] [])
          ("k", sampleEntry.external_id) =
        some (buildPayload { key := "k", name := "N", url := "u" } 1 evL) ∧
      findKey (runFeed { key := "k", name := "N", url := "u" } 2 [sampleEntry]
            (runFeed { key := "k", name := "N", url := "u" } 1 [sampleEntry] []))
          ("k", sampleEntry.external_id) =
        some (buildPayload { key := "k", name := "N", url := "u" } 2 evL) ∧
      maskSeen (buildPayload { key := "k", name := "N", url := "u" } 2 evL) =
        maskSeen (buildPayload { key := "k", name := "N", url := "u" } 1 evL) ∧
      (buildPayload { key := "k", name := "N", url := "u" } 1 evL).last_seen_at = some 1 ∧
      (buildPayload { key := "k", name := "N", url := "u" } 2 evL).last_seen_at = some 2) :=
  ⟨List.mem_singleton.mpr rfl,
    reconciler_idempotent_up_to_last_seen _ [sampleEntry] 1 2 [] sampleEntry
      (List.mem_singleton.mpr rfl)⟩

/-! ## Safety Filter -/

/-- Is an entry's start time inside the admission window
`[-7 days, +180 days]` of the run's current time?  An entry with no start time
always passes (`if (!ev.start_iso) return true`), from the `filtered` step of
`src/app/know-your-rights/api/import/run/route.ts` lines 151-167. -/
def inWindow (now : Int) (ev : ImportedEvent) : Bool :=
  match ev.start with
  | none => true
  | some t => now - 7 * dayMs ≤ t && t ≤ now + 180 * dayMs

/-- The Safety Filter: every route caps a feed to its first 200 entries
(`events.slice(0, 200)`); the know-your-rights route additionally applies the
temporal window (`temporal = true`), the main route and its variant do not
(`temporal = false`). -/
def safetyFilter (temporal : Bool) (now : Int) (events : List ImportedEvent) :
    List ImportedEvent :=
  let limited := events.take 200
  if temporal then limited.filter (inWindow now) else limited

/-- **C5.** The Safety Filter admits exactly the first 200 entries of a feed
in feed order — a 250-entry feed yields the 200 first entries, in original
order — and, when the temporal-window policy is enabled, an admitted entry
with a start time additionally lies within `[-7 days, +180 days]` of the
run's current time, while an entry (among the capped prefix) with no start
time is always admitted. -/
theorem safety_filter_cap_and_window (now : Int) (events : List ImportedEvent)
    (temporal : Bool) :
    (safetyFilter false now events = events.take 200) ∧
    (events.length = 250 →
      (safetyFilter false now events).length = 200 ∧
      safetyFilter false now events = events.take 200) ∧
    (∀ ev ∈ safetyFilter temporal now events, ev ∈ events.take 200) ∧
    (temporal = true → ∀ ev ∈ safetyFilter temporal now events, ∀ t : Int,
      ev.start = some t → now - 7 * dayMs ≤ t ∧ t ≤ now + 180 * dayMs) ∧
    (temporal = true → ∀ ev ∈ events.take 200, ev.start = none →
      ev ∈ safetyFilter temporal now events) ∧
    (safetyFilter temporal now events).Sublist (events.take 200) := by
  refine ⟨rfl, fun h => ⟨by simp [safetyFilter, h], rfl⟩, ?_, ?_, ?_, ?_⟩
  · intro ev hev
    cases temporal with
    | false => exact hev
    | true => exact List.mem_of_mem_filter hev
  · intro ht ev hev t hstart
    subst ht
    have := List.of_mem_filter hev
    rw [inWindow, hstart] at this
    simpa using this
  · intro ht ev hev hnone
    subst ht
    exact List.mem_filter.mpr ⟨hev, by simp [inWindow, hnone]⟩
  · cases temporal with
    | false => exact List.Sublist.refl _
    | true => exact List.filter_sublist _

/-- A 250-entry feed: 200 copies of `sampleEntry` padded with 50 more. -/
def longFeed : List ImportedEvent :=
  List.replicate 250 sampleEntry

/-- Witness for `safety_filter_cap_and_window`: the 250-entry feed is capped
to exactly its first 200 entries, and with the window enabled a start-less
first entry is admitted. -/
theorem safety_filter_cap_and_window_witness :
    (safetyFilter false 0 longFeed).length = 200 ∧
    safetyFilter false 0 longFeed = longFeed.take 200 ∧
    ({ sampleEntry with start := none } ∈
        safetyFilter true 0 [{ sampleEntry with start := none }]) := by
  have h := safety_filter_cap_and_window 0 longFeed false
  have h2 := safety_filter_cap_and_window 0 [{ sampleEntry with start := none }] true
  have hlen : longFeed.length = 250 := by
    rw [longFeed]
    exact List.length_replicate 250 sampleEntry
  refine ⟨(h.2.1 hlen).1, h.1, ?_⟩
  exact h2.2.2.2.2.1 rfl _ (by simp) rfl

/-! ## Moderation: report intake (`submitReport` in `src/components/PageHeader.tsx`) -/

/-- A report record: `{ protest_id, reason, details }` as inserted by
`submitReport` (`src/components/PageHeader.tsx` lines 462-466). -/
structure ReportRec where
  protest_id : String
  reason : String
  details : Option String
  deriving Repr, DecidableEq

/-- Modelled from the spec: the store-side report intake.  The database-side
maintenance of the event's counters on report insertion is not under `src/`
(only its caller `submitReport` is); per the spec, "creating a report record
increments the event's `report_count` and sets `last_reported_at` to the
current time; it does not by itself change `status`". -/
def reportIntakeStore (e : Protest) (now : Int) (_lastReported : Option Int) :
    Protest × Option Int :=
  ({ e with report_count := e.report_count + 1 }, some now)

/-- One report submission, from `submitReport`
(`src/components/PageHeader.tsx` lines 450-479) combined with the store-side
intake: an empty reason is rejected ("Please select a reason.") and nothing
changes; otherwise a report row `{ protest_id, reason: reason.trim(),
details: details.trim() || null }` is inserted and the event's counters are
updated by the store. -/
def submitReport (reason details : String) (protestId : String)
    (reports : List ReportRec) (e : Protest) (lastReported : Option Int)
    (now : Int) : List ReportRec × Protest × Option Int :=
  if jsTrim reason = "" then
    (reports, e, lastReported)
  else
    let rep : ReportRec :=
      { protest_id := protestId
        reason := jsTrim reason
        details := if jsTrim details = "" then none else some (jsTrim details) }
    let (e', last') := reportIntakeStore e now lastReported
    (reports ++ [rep], e', last')

/-- **C6.** Submitting a report with a selected reason creates a report
record, increments the event's `report_count` by one and sets its
`last_reported_at` to the current time, while leaving the event's `status`
(and every other event field) unchanged; an active event with three reports
submitted has `report_count = 3` and `status` still `"active"` — no status
transition is invoked by report intake. -/
theorem report_intake_counts_without_status_change (reason details protestId : String)
    (reports : List ReportRec) (e : Protest) (lastReported : Option Int)
    (now now2 now3 : Int) (hreason : jsTrim reason ≠ "") :
    (submitReport reason details protestId reports e lastReported now).1 =
      reports ++ [{ protest_id := protestId
                    reason := jsTrim reason
                    details := if jsTrim details = "" then none else some (jsTrim details) }] ∧
    (submitReport reason details protestId reports e lastReported now).2.1.report_count =
      e.report_count + 1 ∧
    (submitReport reason details protestId reports e lastReported now).2.2 = some now ∧
    (submitReport reason details protestId reports e lastReported now).2.1.status =
      e.status ∧
    (submitReport reason details protestId reports e lastReported now).2.1 =
      { e with report_count := e.report_count + 1 } ∧
    (e.status = "active" → e.report_count = 0 →
      let s1 := submitReport reason details protestId reports e lastReported now
      let s2 := submitReport reason details protestId s1.1 s1.2.1 s1.2.2 now2
      let s3 := submitReport reason details protestId s2.1 s2.2.1 s2.2.2 now3
      s3.2.1.report_count = 3 ∧ s3.2.1.status = "active" ∧ s3.2.2 = some now3) := by
  refine ⟨?_, ?_, ?_, ?_, ?_, ?_⟩
  · simp [submitReport, hreason, reportIntakeStore]
  · simp [submitReport, hreason, reportIntakeStore]
  · simp [submitReport, hreason, reportIntakeStore]
  · simp [submitReport, hreason, reportIntakeStore]
  · simp [submitReport, hreason, reportIntakeStore]
  · intro hstatus hcount
    simp only [submitReport, hreason, reportIntakeStore, if_neg hreason]
    simp [hstatus, hcount]

/-- Witness for `report_intake_counts_without_status_change`: three reports on
an active event with zero prior reports. -/
theorem report_intake_counts_witness :
    jsTrim "Spam / scam" ≠ "" ∧
    (let e : Protest := { id := "p1"
                          user_id := none
                          organizer_username := some "o"
                          title := "T"
                          description := "D"
                          status := "active"
                          report_count := 0 }
     let s1 := submitReport "Spam / scam" "" "p1" [] e none 10
     let s2 := submitReport "Spam / scam" "" "p1" s1.1 s1.2.1 s1.2.2 20
     let s3 := submitReport "Spam / scam" "" "p1" s2.1 s2.2.1 s2.2.2 30
     s3.2.1.report_count = 3 ∧ s3.2.1.status = "active" ∧ s3.2.2 = some 30) := by
  refine ⟨by decide, ?_⟩
  exact (report_intake_counts_without_status_change "Spam / scam" "" "p1" []
    { id := "p1"
      user_id := none
      organizer_username := some "o"
      title := "T"
      description := "D"
      status := "active"
      report_count := 0 }
    none 10 20 30 (by decide)).2.2.2.2.2 rfl rfl

/-! ## Moderation: comment policy gate (`postComment` in `src/components/PageHeader.tsx`) -/

/-- Does `pat` occur at the head of `l`? -/
def headMatches (pat l : List Char) : Bool :=
  match pat, l with
  | [], _ => true
  | _ :: _, [] => false
  | p :: ps, c :: cs => p == c && headMatches ps cs

/-- JavaScript `String.prototype.includes` on character lists: does `pat`
occur as a contiguous substring of `l`? -/
def containsSub (pat l : List Char) : Bool :=
  match l with
  | [] => pat.isEmpty
  | _ :: cs => headMatches pat l || containsSub pat cs

/-- `text.toLowerCase()` restricted to ASCII (every denylist entry is ASCII). -/
def lowerStr (text : String) : List Char :=
  text.data.map Char.toLower

/-- The fixed denylist of `violatesStandards`
(`src/components/PageHeader.tsx` line 199). -/
def bannedSubstrings : List (List Char) :=
  ["kill yourself".data, "gas the".data, "lynch".data, "rape".data,
    "nazi".data, "kkk".data]

/-- `violatesStandards` (`src/components/PageHeader.tsx` lines 197-201):
lower-case the text and test whether any denylist entry occurs in it. -/
def violatesStandards (text : String) : Bool :=
  bannedSubstrings.any (fun w => containsSub w (lowerStr text))

/-- A comment row as inserted by `postComment`
(`src/components/PageHeader.tsx` lines 413-419). -/
structure CommentRec where
  protest_id : String
  organizer_user_id : Option String
  author_name : String
  body : String
  status : String
  deriving Repr, DecidableEq

/-- Outcome of a comment submission: each rejection carries its distinct
user-facing message site; `posted` carries the inserted row. -/
inductive CommentOutcome where
  | cooldown (secondsLeft : Nat)
  | missingFields
  | policyReject
  | posted (c : CommentRec)
  deriving Repr, DecidableEq

/-- `postComment` (`src/components/PageHeader.tsx` lines 389-434): reject
while the cooldown is running; reject when name or body is blank ("Name and
comment are required."); reject when body or author name violates community
standards ("This comment appears to violate community standards."); otherwise
insert the comment row with `status: "visible"`. -/
def postComment (cooldownRemaining : Nat) (authorName body : String)
    (protestId : String) (organizerUserId : Option String) : CommentOutcome :=
  if cooldownRemaining > 0 then
    .cooldown cooldownRemaining
  else if jsTrim authorName = "" || jsTrim body = "" then
    .missingFields
  else if violatesStandards body || violatesStandards authorName then
    .policyReject
  else
    .posted
      { protest_id := protestId
        organizer_user_id := organizerUserId
        author_name := jsTrim authorName
        body := jsTrim body
        status := "visible" }

/-- **C9.** For every comment submission that reaches the content-policy gate
(no cooldown pending, name and body non-blank): if the body or the author
name contains, case-insensitively, any substring of the fixed denylist, the
post is rejected with the policy-violation message and no comment row is
inserted; a submission matching no denylist entry is not rejected by this
gate — it is posted. -/
theorem comment_policy_gate (cooldownRemaining : Nat) (authorName body : String)
    (protestId : String) (organizerUserId : Option String)
    (hcd : cooldownRemaining = 0)
    (hname : jsTrim authorName ≠ "") (hbody : jsTrim body ≠ "") :
    ((violatesStandards body || violatesStandards authorName) = true →
      postComment cooldownRemaining authorName body protestId organizerUserId =
        .policyReject ∧
      ∀ c : CommentRec,
        postComment cooldownRemaining authorName body protestId organizerUserId ≠
          .posted c) ∧
    ((violatesStandards body || violatesStandards authorName) = false →
      postComment cooldownRemaining authorName body protestId organizerUserId =
        .posted
          { protest_id := protestId
            organizer_user_id := organizerUserId
            author_name := jsTrim authorName
            body := jsTrim body
            status := "visible" }) := by
  subst hcd
  constructor
  · intro hviol
    constructor
    · simp [postComment, hname, hbody, hviol]
    · intro c
      simp [postComment, hname, hbody, hviol]
  · intro hclean
    simp only [Bool.or_eq_false_iff] at hclean
    simp [postComment, hname, hbody, hclean.1, hclean.2]

/-- Witness for `comment_policy_gate`: a body containing "NaZi" (matching the
denylist case-insensitively) is rejected by the gate, and a clean submission
is posted. -/
theorem comment_policy_gate_witness :
    ((0 : Nat) = 0 ∧ jsTrim "Sam" ≠ "" ∧ jsTrim "NaZi propaganda here" ≠ "" ∧
      (violatesStandards "NaZi propaganda here" || violatesStandards "Sam") = true ∧
      postComment 0 "Sam" "NaZi propaganda here" "p1" none = .policyReject) ∧
    ((violatesStandards "See you there" || violatesStandards "Sam") = false ∧
      postComment 0 "Sam" "See you there" "p1" none =
        .posted
          { protest_id := "p1"
            organizer_user_id := none
            author_name := jsTrim "Sam"
            body := jsTrim "See you there"
            status := "visible" }) := by
  constructor
  · exact ⟨rfl, by decide, by decide, by decide,
      ((comment_policy_gate 0 "Sam" "NaZi propaganda here" "p1" none rfl
        (by decide) (by decide)).1 (by decide)).1⟩
  · exact ⟨by decide,
      (comment_policy_gate 0 "Sam" "See you there" "p1" none rfl
        (by decide) (by decide)).2 (by decide)⟩

/-! ## Calendar Normalizer text sanitization

Three copies of `stripHtml` exist.  `src/app/know-your-rights/api/import/run/route.ts`
line 27 and `src/unnamed/part_014` lines 25-31 collapse whitespace with
`/\s+/g` (the latter with the comment "JS regex does NOT support `[[:space:]]`
like PHP does").  `src/app/api/import/run/route.ts` lines 25-30 instead uses
`/[[:space:]]+/g`, which an ECMAScript engine reads as the character class
`{'[', ':', 's', 'p', 'a', 'c', 'e'}` followed by one or more literal `]` —
it does not match whitespace at all. -/

/-- One pass of `replace(/<[^>]*>/g, " ")`.  The scanner is outside a
potential tag (`none`) or has seen an unmatched `<` and buffers the characters
read since (`some buf`, reversed); a closing `>` turns the whole span into one
space, end of input with a pending `<` re-emits the span literally (the regex
never matches a `<` with no later `>`). -/
def stripTagsGo : List Char → Option (List Char) → List Char
  | [], none => []
  | [], some buf => '<' :: buf.reverse
  | c :: cs, none =>
    if c = '<' then stripTagsGo cs (some []) else c :: stripTagsGo cs none
  | c :: cs, some buf =>
    if c = '>' then ' ' :: stripTagsGo cs none else stripTagsGo cs (some (c :: buf))

/-- `replace(/<[^>]*>/g, " ")`. -/
def stripTags (l : List Char) : List Char :=
  stripTagsGo l none

/-- One pass of `replace(/\s+/g, " ")`: the flag records whether the scanner
is inside a whitespace run (whose first character already emitted the single
replacement space). -/
def collapseGo : Bool → List Char → List Char
  | _, [] => []
  | prevWs, c :: cs =>
    if isWs c then
      if prevWs then collapseGo true cs else ' ' :: collapseGo true cs
    else c :: collapseGo false cs

/-- `replace(/\s+/g, " ")`. -/
def collapseWs (l : List Char) : List Char :=
  collapseGo false l

/-- The character class a JavaScript engine actually reads out of
`[[:space:]`. -/
def bugClass (c : Char) : Bool :=
  c == '[' || c == ':' || c == 's' || c == 'p' || c == 'a' || c == 'c' || c == 'e'

/-- One pass of `replace(/[[:space:]]+/g, " ")` as ECMAScript executes it:
a match is one `bugClass` character followed by one or more literal `]`; the
flag records that the scanner is consuming the greedy `]+` run of a match. -/
def buggyGo : Bool → List Char → List Char
  | _, [] => []
  | inBr, c :: cs =>
    if inBr && c == ']' then buggyGo true cs
    else if bugClass c && cs.head? == some ']' then ' ' :: buggyGo true cs
    else c :: buggyGo false cs

/-- `stripHtml` of `src/unnamed/part_014` lines 25-31 (identically
`src/app/know-your-rights/api/import/run/route.ts` line 27):
strip tags, collapse `\s+` runs, trim. -/
def stripHtmlFixed (l : List Char) : List Char :=
  trimChars (collapseWs (stripTags l))

/-- `stripHtml` of `src/app/api/import/run/route.ts` lines 25-30:
strip tags, apply the `[[:space:]]+` replacement (which touches no
whitespace), trim. -/
def stripHtmlMain (l : List Char) : List Char :=
  trimChars (buggyGo false (stripTags l))

/-- `clampText(s, 2000)` over the fixed `stripHtml`
(`src/unnamed/part_014` lines 33-37). -/
def clampTextFixed (l : List Char) : List Char :=
  let t := stripHtmlFixed l
  if t.length ≤ 2000 then t else t.take 2000

/-- `clampText(s, 2000)` over the main route's `stripHtml`
(`src/app/api/import/run/route.ts` lines 32-36). -/
def clampTextMain (l : List Char) : List Char :=
  let t := stripHtmlMain l
  if t.length ≤ 2000 then t else t.take 2000

/-- No two consecutive space characters occur. -/
def noTwoSpaces : List Char → Bool
  | [] => true
  | [_] => true
  | c :: d :: cs => !(c == ' ' && d == ' ') && noTwoSpaces (d :: cs)

/-- **C4.** The main route's normalizer does not collapse whitespace runs:
on the failing input `"<b>Hi</b>  there"` its description output is
`"Hi   there"`, which contains a run of three spaces, while the fixed
normalizer of `src/unnamed/part_014` (whose comment documents that
`[[:space:]]` is not JavaScript) produces `"Hi there"` as the claim states. -/
theorem normalizer_whitespace_bug_eval :
    clampTextMain "<b>Hi</b>  there".data = "Hi   there".data ∧
    noTwoSpaces (clampTextMain "<b>Hi</b>  there".data) = false ∧
    clampTextFixed "<b>Hi</b>  there".data = "Hi there".data ∧
    noTwoSpaces (clampTextFixed "<b>Hi</b>  there".data) = true := by
  refine ⟨by decide, by decide, by decide, by decide⟩

/-! ### Universal sanitization properties of the fixed normalizer -/

/-- `l` contains a markup-tag span: a `<` later followed by a `>`. -/
def hasTag (l : List Char) : Prop :=
  ∃ pre mid post, l = pre ++ '<' :: (mid ++ '>' :: post)

/-- No `<` in `l` is followed, anywhere later, by a `>`. -/
def noLtGt : List Char → Bool
  | [] => true
  | c :: cs => (if c = '<' then !(cs.contains '>') else true) && noLtGt cs

/-- The first character, if any, is not a space. -/
def headNotSpace : List Char → Bool
  | [] => true
  | d :: _ => !(d == ' ')

theorem noTwoSpaces_tail (c : Char) (l : List Char)
    (h : noTwoSpaces (c :: l) = true) : noTwoSpaces l = true := by
  cases l with
  | nil => rfl
  | cons d ds => exact ((Bool.and_eq_true _ _).mp h).2

theorem noTwoSpaces_cons (c : Char) (l : List Char)
    (h : (c == ' ') = false ∨ headNotSpace l = true)
    (hl : noTwoSpaces l = true) : noTwoSpaces (c :: l) = true := by
  cases l with
  | nil => rfl
  | cons d ds =>
    rw [noTwoSpaces]
    refine (Bool.and_eq_true _ _).mpr ⟨?_, hl⟩
    rcases h with h | h
    · simp [h]
    · rw [headNotSpace] at h
      simp only [Bool.not_eq_true'] at h
      simp [h]

theorem noTwoSpaces_append_right (s l : List Char)
    (h : noTwoSpaces (s ++ l) = true) : noTwoSpaces l = true := by
  induction s with
  | nil => exact h
  | cons c s' ih => exact ih (noTwoSpaces_tail c _ h)

theorem noTwoSpaces_append_left (a b : List Char)
    (h : noTwoSpaces (a ++ b) = true) : noTwoSpaces a = true := by
  induction a with
  | nil => rfl
  | cons c a' ih =>
    cases a' with
    | nil => rfl
    | cons d a'' =>
      rw [List.cons_append, List.cons_append] at h
      rw [noTwoSpaces] at h ⊢
      have hp := (Bool.and_eq_true _ _).mp h
      exact (Bool.and_eq_true _ _).mpr ⟨hp.1, ih (by rw [List.cons_append]; exact hp.2)⟩

theorem headNotSpace_collapseGo (l : List Char) :
    headNotSpace (collapseGo true l) = true := by
  induction l with
  | nil => rfl
  | cons c cs ih =>
    rw [collapseGo]
    cases hw : isWs c with
    | true => simpa using ih
    | false =>
      have hcs : (c == ' ') = false := by
        cases hcc : c == ' ' with
        | true =>
          have : c = ' ' := eq_of_beq hcc
          rw [this] at hw
          exact absurd hw (by decide)
        | false => rfl
      simp [hw, headNotSpace, hcs]

theorem noTwoSpaces_collapseGo (l : List Char) :
    ∀ b, noTwoSpaces (collapseGo b l) = true := by
  induction l with
  | nil => intro b; rfl
  | cons c cs ih =>
    intro b
    rw [collapseGo]
    cases hw : isWs c with
    | true =>
      cases b with
      | true => simpa using ih true
      | false =>
        simp only [if_true, Bool.false_eq_true, if_false]
        exact noTwoSpaces_cons ' ' _ (Or.inr (headNotSpace_collapseGo cs)) (ih true)
    | false =>
      have hcs : (c == ' ') = false := by
        cases hcc : c == ' ' with
        | true =>
          have : c = ' ' := eq_of_beq hcc
          rw [this] at hw
          exact absurd hw (by decide)
        | false => rfl
      simp only [Bool.false_eq_true, if_false]
      exact noTwoSpaces_cons c _ (Or.inl hcs) (ih false)

/-- `dropWhile` removes only an initial segment. -/
theorem exists_append_dropWhile (p : Char → Bool) (l : List Char) :
    ∃ s, s ++ l.dropWhile p = l := by
  induction l with
  | nil => exact ⟨[], rfl⟩
  | cons c cs ih =>
    cases hc : p c with
    | true =>
      obtain ⟨s, hs⟩ := ih
      exact ⟨c :: s, by rw [List.dropWhile_cons_of_pos hc, List.cons_append, hs]⟩
    | false => exact ⟨[], by rw [List.nil_append, List.dropWhile_cons_of_neg (by simp [hc])]⟩

/-- `trimChars` keeps a contiguous middle segment of its input. -/
theorem trimChars_infix (x : List Char) :
    ∃ s t, x = s ++ trimChars x ++ t := by
  obtain ⟨s, hs⟩ := exists_append_dropWhile isWs x
  obtain ⟨t, ht⟩ := exists_append_dropWhile isWs (x.dropWhile isWs).reverse
  refine ⟨s, t.reverse, ?_⟩
  have hA : x.dropWhile isWs = trimChars x ++ t.reverse := by
    have := congrArg List.reverse ht
    simpa [trimChars] using this.symm
  calc x = s ++ x.dropWhile isWs := hs.symm
    _ = s ++ (trimChars x ++ t.reverse) := by rw [hA]
    _ = s ++ trimChars x ++ t.reverse := (List.append_assoc _ _ _).symm

theorem noTwoSpaces_trimChars (x : List Char)
    (h : noTwoSpaces x = true) : noTwoSpaces (trimChars x) = true := by
  obtain ⟨s, t, hst⟩ := trimChars_infix x
  rw [hst, List.append_assoc] at h
  exact noTwoSpaces_append_left _ _ (noTwoSpaces_append_right s _ h)

/-- The fixed normalizer's output never contains two consecutive spaces. -/
theorem fixed_normalizer_no_double_space (l : List Char) :
    noTwoSpaces (clampTextFixed l) = true := by
  have hx : noTwoSpaces (stripHtmlFixed l) = true :=
    noTwoSpaces_trimChars _ (noTwoSpaces_collapseGo (stripTags l) false)
  rw [clampTextFixed]
  by_cases hlen : (stripHtmlFixed l).length ≤ 2000
  · simpa [hlen] using hx
  · simp only [hlen, if_false]
    have := List.take_append_drop 2000 (stripHtmlFixed l)
    exact noTwoSpaces_append_left _ _ (by rw [this]; exact hx)

theorem noLtGt_of_not_mem (l : List Char) (h : '>' ∉ l) : noLtGt l = true := by
  induction l with
  | nil => rfl
  | cons c cs ih =>
    rw [noLtGt]
    have hcs : '>' ∉ cs := fun hm => h (List.mem_cons_of_mem c hm)
    refine (Bool.and_eq_true _ _).mpr ⟨?_, ih hcs⟩
    by_cases hc : c = '<'
    · rw [if_pos hc, Bool.not_eq_true']
      cases hcon : cs.contains '>' with
      | true => exact absurd (List.elem_iff.mp hcon) hcs
      | false => rfl
    · simp [hc]

theorem noLtGt_tail (c : Char) (l : List Char) (h : noLtGt (c :: l) = true) :
    noLtGt l = true := by
  rw [noLtGt] at h
  exact ((Bool.and_eq_true _ _).mp h).2

theorem noLtGt_sublist (l₁ l₂ : List Char) (hsub : List.Sublist l₁ l₂)
    (h : noLtGt l₂ = true) : noLtGt l₁ = true := by
  induction hsub with
  | slnil => rfl
  | cons a _ ih => exact ih (noLtGt_tail a _ h)
  | @cons₂ t₁ t₂ a hsub ih =>
    rw [noLtGt] at h ⊢
    have hp := (Bool.and_eq_true _ _).mp h
    refine (Bool.and_eq_true _ _).mpr ⟨?_, ih hp.2⟩
    by_cases ha : a = '<'
    · simp only [ha, if_true] at hp ⊢
      cases hc : t₁.contains '>' with
      | true =>
        have : ('>' : Char) ∈ t₂ := hsub.subset (List.elem_iff.mp hc)
        have : t₂.contains '>' = true := List.elem_iff.mpr this
        rw [this] at hp
        exact absurd hp.1 (by decide)
      | false => rfl
    · simp [ha]

/-- Invariant of the tag stripper: in its output, no `<` is ever followed by
a `>` (when a pending `<` is flushed at end of input, no `>` occurred after
it). -/
theorem noLtGt_stripTagsGo (l : List Char) :
    noLtGt (stripTagsGo l none) = true ∧
    ∀ buf : List Char, '>' ∉ buf → noLtGt (stripTagsGo l (some buf)) = true := by
  induction l with
  | nil =>
    refine ⟨rfl, ?_⟩
    intro buf hbuf
    rw [stripTagsGo, noLtGt]
    have hmem : '>' ∉ buf.reverse := fun hm => hbuf (List.mem_reverse.mp hm)
    refine (Bool.and_eq_true _ _).mpr ⟨?_, noLtGt_of_not_mem _ hmem⟩
    rw [if_pos rfl, Bool.not_eq_true']
    cases hcon : buf.reverse.contains '>' with
    | true => exact absurd (List.elem_iff.mp hcon) hmem
    | false => rfl
  | cons c cs ih =>
    constructor
    · rw [stripTagsGo]
      by_cases hc : c = '<'
      · simp only [hc, if_true]
        exact ih.2 [] (by simp)
      · simp only [hc, if_false]
        rw [noLtGt]
        refine (Bool.and_eq_true _ _).mpr ⟨by simp [hc], ih.1⟩
    · intro buf hbuf
      rw [stripTagsGo]
      by_cases hc : c = '>'
      · simp only [hc, if_true]
        rw [noLtGt]
        refine (Bool.and_eq_true _ _).mpr ⟨?_, ih.1⟩
        rw [if_neg (show ¬ (' ' = '<') by decide)]
      · simp only [hc, if_false]
        refine ih.2 (c :: buf) ?_
        intro hm
        rcases List.mem_cons.mp hm with h | h
        · exact hc h.symm
        · exact hbuf h

/-- Is a character `<` or `>`? -/
def tagChar (c : Char) : Bool :=
  c == '<' || c == '>'

theorem contains_filter_tagChar (a : Char) (ha : tagChar a = true) (l : List Char) :
    (l.filter tagChar).contains a = l.contains a := by
  induction l with
  | nil => rfl
  | cons c cs ih =>
    cases hc : tagChar c with
    | true =>
      rw [List.filter_cons_of_pos hc, List.contains_cons, List.contains_cons, ih]
    | false =>
      rw [List.filter_cons_of_neg (by simp [hc]), List.contains_cons, ih]
      have : (a == c) = false := by
        cases hac : a == c with
        | true =>
          have : a = c := eq_of_beq hac
          rw [this] at ha
          rw [ha] at hc
          exact absurd hc (by decide)
        | false => rfl
      simp [this]

theorem noLtGt_filter_tagChar (l : List Char) :
    noLtGt (l.filter tagChar) = noLtGt l := by
  induction l with
  | nil => rfl
  | cons c cs ih =>
    cases hc : tagChar c with
    | true =>
      rw [List.filter_cons_of_pos hc, noLtGt, noLtGt, ih,
        contains_filter_tagChar '>' (by decide) cs]
    | false =>
      rw [List.filter_cons_of_neg (by simp [hc]), noLtGt, ih]
      have hlt : ¬ c = '<' := by
        intro h
        rw [h] at hc
        exact absurd hc (by decide)
      simp [hlt]

theorem filter_tagChar_collapseGo (l : List Char) :
    ∀ b, (collapseGo b l).filter tagChar = l.filter tagChar := by
  induction l with
  | nil => intro b; rfl
  | cons c cs ih =>
    intro b
    rw [collapseGo]
    cases hw : isWs c with
    | true =>
      have hct : tagChar c = false := by
        cases hc : tagChar c with
        | true =>
          rcases Bool.or_eq_true _ _ |>.mp (by rwa [tagChar] at hc) with h | h
          · rw [eq_of_beq h] at hw
            exact absurd hw (by decide)
          · rw [eq_of_beq h] at hw
            exact absurd hw (by decide)
        | false => rfl
      cases b with
      | true =>
        simp only [if_true]
        rw [ih true, List.filter_cons_of_neg (by simp [hct])]
      | false =>
        simp only [if_true, Bool.false_eq_true, if_false]
        rw [List.filter_cons_of_neg (by decide), ih true,
          List.filter_cons_of_neg (by simp [hct])]
    | false =>
      simp only [Bool.false_eq_true, if_false]
      cases hct : tagChar c with
      | true =>
        rw [List.filter_cons_of_pos hct, List.filter_cons_of_pos hct, ih false]
      | false =>
        rw [List.filter_cons_of_neg (by simp [hct]),
          List.filter_cons_of_neg (by simp [hct]), ih false]

theorem noLtGt_collapseWs (x : List Char) (h : noLtGt x = true) :
    noLtGt (collapseWs x) = true := by
  rw [← noLtGt_filter_tagChar, collapseWs, filter_tagChar_collapseGo x false,
    noLtGt_filter_tagChar]
  exact h

theorem trimChars_sublist (x : List Char) : List.Sublist (trimChars x) x := by
  obtain ⟨s, t, hst⟩ := trimChars_infix x
  conv_rhs => rw [hst]
  exact ((List.sublist_append_right s (trimChars x)).trans
    (List.sublist_append_left (s ++ trimChars x) t))

theorem noLtGt_not_hasTag (l : List Char) (h : noLtGt l = true) : ¬ hasTag l := by
  rintro ⟨pre, mid, post, rfl⟩
  have hsub : List.Sublist ('<' :: (mid ++ '>' :: post)) (pre ++ '<' :: (mid ++ '>' :: post)) :=
    List.sublist_append_right pre _
  have h2 := noLtGt_sublist _ _ hsub h
  rw [noLtGt] at h2
  have hp := (Bool.and_eq_true _ _).mp h2
  have hmem : ('>' : Char) ∈ mid ++ '>' :: post :=
    List.mem_append_right mid (List.mem_cons_self _ _)
  have : (mid ++ '>' :: post).contains '>' = true := List.elem_iff.mpr hmem
  rw [if_pos rfl, this] at hp
  exact absurd hp.1 (by decide)

/-- The fixed normalizer's output contains no markup-tag span and is at most
2000 characters long. -/
theorem fixed_normalizer_no_tag_and_short (l : List Char) :
    ¬ hasTag (clampTextFixed l) ∧ (clampTextFixed l).length ≤ 2000 := by
  have hstrip : noLtGt (stripTags l) = true := (noLtGt_stripTagsGo l).1
  have hcol : noLtGt (collapseWs (stripTags l)) = true := noLtGt_collapseWs _ hstrip
  have htrim : noLtGt (stripHtmlFixed l) = true :=
    noLtGt_sublist _ _ (trimChars_sublist _) hcol
  have htake : List.Sublist (List.take 2000 (stripHtmlFixed l)) (stripHtmlFixed l) := by
    conv_rhs => rw [← List.take_append_drop 2000 (stripHtmlFixed l)]
    exact List.sublist_append_left _ _
  constructor
  · rw [clampTextFixed]
    by_cases hlen : (stripHtmlFixed l).length ≤ 2000
    · rw [if_pos hlen]
      exact noLtGt_not_hasTag _ htrim
    · rw [if_neg hlen]
      exact noLtGt_not_hasTag _ (noLtGt_sublist _ _ htake htrim)
  · rw [clampTextFixed]
    by_cases hlen : (stripHtmlFixed l).length ≤ 2000
    · rw [if_pos hlen]
      exact hlen
    · rw [if_neg hlen]
      simp [List.length_take]

/-! ## Feed Fetcher

`fetchIcs` exists in two cited versions.  `src/app/api/import/run/route.ts`
lines 86-136: trim the URL, fail immediately on an empty or non-http(s) URL,
then attempt a plain fetch and — on any failure, including a non-2xx status or
a body shorter than 10 characters — retry once with browser-like headers; a
failure of the retry is wrapped into a single "fetch failed (network)" error
carrying both attempts' messages.  `src/unnamed/part_014` lines 55-92: a
single fetch with a bot User-Agent, no URL precheck; network-level failures
are wrapped as "fetch failed (network)", a non-2xx status raises an HTTP
error, and a 2xx body not containing `BEGIN:VCALENDAR` raises the
content-validation error "ICS fetch returned non-calendar content".
The HTTP layer is abstracted as the outcome each attempt would produce. -/

/-- Outcome of one HTTP attempt: a network-level failure (DNS/TLS/abort), or
a response with its `res.ok` flag and body text. -/
inductive HttpAttempt where
  | netfail
  | resp (ok : Bool) (body : String)
  deriving Repr, DecidableEq

/-- Failure of a single attempt inside the main `fetchIcs`. -/
inductive AttemptErr where
  | timeoutOrNet
  | httpStatus
  | emptyBody
  deriving Repr, DecidableEq

/-- Failure of the main `fetchIcs` as surfaced to its caller: the prechecks
fail before any network call; after both attempts fail, the errors are
wrapped into the network-labelled message of lines 130-133. -/
inductive MainFetchErr where
  | emptyUrl
  | badScheme
  | networkWrapped (a1 a2 : AttemptErr)
  deriving Repr, DecidableEq

/-- One attempt of the main `fetchIcs`: non-2xx throws, a body shorter than
10 characters throws "ICS response was empty", otherwise the text is
returned. -/
def attemptRun : HttpAttempt → Except AttemptErr String
  | .netfail => .error .timeoutOrNet
  | .resp ok body =>
    if !ok then .error .httpStatus
    else if body.length < 10 then .error .emptyBody
    else .ok body

/-- The `/^https?:\/\//i` scheme test of
`src/app/api/import/run/route.ts` line 89, on the trimmed URL. -/
def hasHttpScheme (url : String) : Bool :=
  let l := (jsTrim url).data.map Char.toLower
  headMatches "http://".data l || headMatches "https://".data l

/-- The main `fetchIcs` (`src/app/api/import/run/route.ts` lines 86-136),
returning its outcome together with the number of network calls made. -/
def fetchIcsMain (url : String) (a1 a2 : HttpAttempt) :
    Except MainFetchErr String × Nat :=
  if jsTrim url = "" then (.error .emptyUrl, 0)
  else if !(hasHttpScheme url) then (.error .badScheme, 0)
  else
    match attemptRun a1 with
    | .ok text => (.ok text, 1)
    | .error e1 =>
      match attemptRun a2 with
      | .ok text => (.ok text, 2)
      | .error e2 => (.error (.networkWrapped e1 e2), 2)

/-- Failure of the variant `fetchIcs` of `src/unnamed/part_014`: the three
`throw` sites are distinct error kinds. -/
inductive VarFetchErr where
  | network
  | httpStatus
  | nonCalendar
  deriving Repr, DecidableEq

/-- The sanity check of `src/unnamed/part_014` line 84:
`text.includes("BEGIN:VCALENDAR")`. -/
def containsMarker (body : String) : Bool :=
  containsSub "BEGIN:VCALENDAR".data body.data

/-- The variant `fetchIcs` (`src/unnamed/part_014` lines 55-92): no URL
precheck; one fetch whose network-level failure, HTTP failure and missing
calendar marker are reported as distinct errors. -/
def fetchIcsVariant (a : HttpAttempt) : Except VarFetchErr String :=
  match a with
  | .netfail => .error .network
  | .resp ok body =>
    if !ok then .error .httpStatus
    else if !(containsMarker body) then .error .nonCalendar
    else .ok body

/-- **C7 counterexample.** The main Fetcher does not validate the calendar
container marker: a successful HTTP response whose 71-character body contains
no `BEGIN:VCALENDAR` is returned as a success rather than failing with a
content-validation error. -/
theorem main_fetcher_accepts_non_calendar_body :
    (fetchIcsMain "http://example.com/feed.ics"
        (.resp true "this is plainly not a calendar document, just filler text for the test")
        (.resp true "this is plainly not a calendar document, just filler text for the test")).1 =
      .ok "this is plainly not a calendar document, just filler text for the test" ∧
    containsMarker
      "this is plainly not a calendar document, just filler text for the test" = false ∧
    10 ≤ ("this is plainly not a calendar document, just filler text for the test" : String).length := by
  refine ⟨by rfl, by decide, by decide⟩

/-- **C7 (amended).** The main Fetcher fails immediately, with no network
call, on an empty or non-http(s) URL; on a successful first response it
succeeds exactly when the body is non-trivially sized (≥ 10 characters), and
a trivially-sized body on both attempts fails inside the network-labelled
retry wrapper carrying the "ICS response was empty" attempt errors.  The
calendar container-marker validation is performed by the variant Fetcher,
which on a successful response without `BEGIN:VCALENDAR` fails with a
content-validation error distinct from its network error (a trivially-sized
body cannot contain the 15-character marker, so it also fails there). -/
theorem fetcher_validation_amended (url : String) (a2 : HttpAttempt)
    (body : String) :
    (jsTrim url = "" → fetchIcsMain url .netfail a2 = (.error .emptyUrl, 0) ∧
      fetchIcsMain url (.resp true body) a2 = (.error .emptyUrl, 0)) ∧
    (jsTrim url ≠ "" → hasHttpScheme url = false →
      fetchIcsMain url .netfail a2 = (.error .badScheme, 0) ∧
      fetchIcsMain url (.resp true body) a2 = (.error .badScheme, 0)) ∧
    (jsTrim url ≠ "" → hasHttpScheme url = true → 10 ≤ body.length →
      fetchIcsMain url (.resp true body) a2 = (.ok body, 1)) ∧
    (jsTrim url ≠ "" → hasHttpScheme url = true → body.length < 10 →
      fetchIcsMain url (.resp true body) (.resp true body) =
        (.error (.networkWrapped .emptyBody .emptyBody), 2)) ∧
    (containsMarker body = false →
      fetchIcsVariant (.resp true body) = .error .nonCalendar) ∧
    (containsMarker body = true → fetchIcsVariant (.resp true body) = .ok body) ∧
    fetchIcsVariant .netfail = .error .network ∧
    VarFetchErr.nonCalendar ≠ VarFetchErr.network := by
  refine ⟨?_, ?_, ?_, ?_, ?_, ?_, rfl, by decide⟩
  · intro h
    constructor <;> simp [fetchIcsMain, h]
  · intro h hs
    constructor <;> simp [fetchIcsMain, h, hs]
  · intro h hs hlen
    have : ¬ body.length < 10 := by omega
    simp [fetchIcsMain, h, hs, attemptRun, this]
  · intro h hs hlen
    simp [fetchIcsMain, h, hs, attemptRun, hlen]
  · intro hm
    simp [fetchIcsVariant, hm]
  · intro hm
    simp [fetchIcsVariant, hm]

/-- Witness for `fetcher_validation_amended`: the empty URL and an `ftp://`
URL fail with zero network calls; a valid URL with a 2xx calendar body
succeeds on the first attempt; the variant accepts a calendar body. -/
theorem fetcher_validation_amended_witness :
    (jsTrim "" = "" ∧
      fetchIcsMain "" HttpAttempt.netfail HttpAttempt.netfail = (.error .emptyUrl, 0)) ∧
    (jsTrim "ftp://cal.example/x" ≠ "" ∧ hasHttpScheme "ftp://cal.example/x" = false ∧
      fetchIcsMain "ftp://cal.example/x" HttpAttempt.netfail HttpAttempt.netfail =
        (.error .badScheme, 0)) ∧
    (hasHttpScheme "HTTPS://cal.example/x" = true ∧
      fetchIcsMain "HTTPS://cal.example/x"
        (.resp true "BEGIN:VCALENDAR ...") HttpAttempt.netfail =
        (.ok "BEGIN:VCALENDAR ...", 1)) ∧
    fetchIcsVariant (.resp true "BEGIN:VCALENDAR ...") = .ok "BEGIN:VCALENDAR ..." := by
  have h1 := fetcher_validation_amended "" HttpAttempt.netfail "x"
  have h2 := fetcher_validation_amended "ftp://cal.example/x" HttpAttempt.netfail "x"
  have h3 := fetcher_validation_amended "HTTPS://cal.example/x" HttpAttempt.netfail
    "BEGIN:VCALENDAR ..."
  refine ⟨⟨by decide, (h1.1 (by decide)).1⟩,
    ⟨by decide, by decide, (h2.2.1 (by decide) (by decide)).1⟩,
    ⟨by decide, h3.2.2.1 (by decide) (by decide) (by decide)⟩,
    h3.2.2.2.2.2.1 (by decide)⟩

end LocalProtest
